import Mathlib

/-!
Verification of the InfiniteTalk Runpod serverless worker.

This file shallowly embeds the parts of the repository needed to settle the
frozen claims:

* `worker/validator.py` — JSON-ish payload model, defaults merging
  (`apply_defaults_to_single`), field/model validation and
  `normalize_and_validate`;
* `worker/storage.py` — `download_from_url`'s retry loop;
* `worker/pipeline.py` — `run_inference` incl. the single OOM retry;
* `worker/handler.py` — `_run_single_item` checkpoint/progress emission,
  the exception-classification catch site, `ERROR_RETRYABLE`, the batch
  loop and the RNG seeding logic of `run`;
* `ui/app.py` — the adaptive polling interval.

Python dicts are modelled as insertion-ordered association lists with
distinct keys; Python floats are modelled as rationals; external effects
(network, GPU, filesystem) are modelled as explicit oracle parameters.
-/

/-- JSON-like values, the payloads the worker manipulates. -/
inductive JVal where
  | jnull
  | jbool (b : Bool)
  | jint (n : Int)
  | jnum (q : ℚ)
  | jstr (s : String)
  | jarr (xs : List JVal)
  | jobj (fields : List (String × JVal))

/-- A Python dict with string keys, as an insertion-ordered assoc list. -/
abbrev Dict := List (String × JVal)

/-- `d.get(k)` / `d[k]`: first binding of `k` in `d`. -/
def dget : Dict → String → Option JVal
  | [], _ => none
  | (k, v) :: rest, key => if k == key then some v else dget rest key

/-- `k in d`. -/
def dmem (d : Dict) (key : String) : Bool :=
  (dget d key).isSome

/-- Keys of a dict, in order. -/
def dkeys (d : Dict) : List String :=
  d.map (·.1)

/-- `d[k] = v`: replace the binding in place if present, else append. -/
def dset (d : Dict) (key : String) (v : JVal) : Dict :=
  if dmem d key then d.map (fun kv => if kv.1 == key then (key, v) else kv)
  else d ++ [(key, v)]

/-- `{**a, **b}`: keys of `a` in order (values overridden by `b` where
present), then keys of `b` not in `a`, in order. -/
def pyUnion (a b : Dict) : Dict :=
  a.map (fun kv => (kv.1, (dget b kv.1).getD kv.2)) ++
    b.filter (fun kv => !(dmem a kv.1))

/-- `d.get(k, {})` when the value is expected to be a dict; non-dict values
only arise on inputs the source would have rejected earlier. -/
def dgetObj (d : Dict) (key : String) : Dict :=
  match dget d key with
  | some (JVal.jobj fs) => fs
  | _ => []

/-! ### String helpers (Python `in` on strings, `str.lower()`) -/

def charsStartWith : List Char → List Char → Bool
  | _, [] => true
  | [], _ :: _ => false
  | a :: as, b :: bs => a == b && charsStartWith as bs

def charsHave (hay pat : List Char) : Bool :=
  match hay with
  | [] => pat.isEmpty
  | _ :: rest => charsStartWith hay pat || charsHave rest pat

/-- `pat in s` for Python strings. -/
def containsSub (s pat : String) : Bool :=
  charsHave s.toList pat.toList

/-- `s.lower()`. -/
def lowerStr (s : String) : String :=
  String.mk (s.toList.map Char.toLower)

/-! ### `worker/validator.py` — field and model validation

The pydantic models are embedded as executable checks over the raw dict.
Pydantic's lax-mode numeric/string coercions (e.g. `"81"` to `81`) are not
modelled; the claims only concern well-typed values.  Success/failure is
faithful; pydantic aggregates all field errors into one exception whereas
the embedding reports the first, which does not affect acceptance. -/

def okU : Except String Unit := .ok ()

/-- Whether field `f` is absent or `None` (pydantic treats both as the
`None` default for optional fields). -/
def isNoneLike (d : Dict) (f : String) : Bool :=
  match dget d f with
  | none => true
  | some JVal.jnull => true
  | some _ => false

/-- A required `str` field with a minimum length. -/
def reqStrField (d : Dict) (f : String) (minLen : Nat) : Except String Unit :=
  match dget d f with
  | some (JVal.jstr s) =>
      if minLen ≤ s.length then okU else .error (f ++ ": string too short")
  | some _ => .error (f ++ ": not a string")
  | none => .error (f ++ ": field required")

/-- An `Optional[str]` field. -/
def optStrField (d : Dict) (f : String) : Except String Unit :=
  match dget d f with
  | none => okU
  | some JVal.jnull => okU
  | some (JVal.jstr _) => okU
  | some _ => .error (f ++ ": not a string")

/-- A `Literal[...]` enum field (with default); `nullable` for
`Optional[Literal[...]]`. -/
def optEnumField (d : Dict) (f : String) (allowed : List String)
    (nullable : Bool) : Except String Unit :=
  match dget d f with
  | none => okU
  | some JVal.jnull => if nullable then okU else .error (f ++ ": null not allowed")
  | some (JVal.jstr s) =>
      if allowed.contains s then okU else .error (f ++ ": not a permitted value")
  | some _ => .error (f ++ ": not a permitted value")

/-- An `int` field (with default); `nullable` for `Optional[int]`. -/
def optIntField (d : Dict) (f : String) (nullable : Bool) : Except String Unit :=
  match dget d f with
  | none => okU
  | some JVal.jnull => if nullable then okU else .error (f ++ ": null not allowed")
  | some (JVal.jint _) => okU
  | some _ => .error (f ++ ": not an integer")

/-- A `float` field with a default (ints coerce to floats). -/
def optNumField (d : Dict) (f : String) : Except String Unit :=
  match dget d f with
  | none => okU
  | some (JVal.jint _) => okU
  | some (JVal.jnum _) => okU
  | some _ => .error (f ++ ": not a number")

/-- A `bool` field (with default); `nullable` for `Optional[bool]`. -/
def optBoolField (d : Dict) (f : String) (nullable : Bool) : Except String Unit :=
  match dget d f with
  | none => okU
  | some JVal.jnull => if nullable then okU else .error (f ++ ": null not allowed")
  | some (JVal.jbool _) => okU
  | some _ => .error (f ++ ": not a boolean")

/-- `validate_frame_num_4n_plus_1` (identical on `SingleInput` and
`BatchInput`): reject unless `frame_num > 0` and `(frame_num - 1) % 4 == 0`.
Lean's `Int` `%` is Euclidean mod, which agrees with Python `%` for the
positive modulus 4. -/
def validate_frame_num_4n_plus_1 (v : Int) : Except String Int :=
  if v ≤ 0 || (v - 1) % 4 != 0 then
    .error "frame_num must be 4n+1 and positive"
  else .ok v

def chkFrameNum (d : Dict) : Except String Unit :=
  match dget d "frame_num" with
  | none => okU
  | some (JVal.jint n) =>
      match validate_frame_num_4n_plus_1 n with
      | .ok _ => okU
      | .error e => .error e
  | some _ => .error "frame_num: not an integer"

/-- `validate_bbox`: `None` passes; otherwise a list of exactly 4 ints. -/
def chkBbox (d : Dict) : Except String Unit :=
  match dget d "bbox" with
  | none => okU
  | some JVal.jnull => okU
  | some (JVal.jarr xs) =>
      if xs.all (fun x => match x with | JVal.jint _ => true | _ => false) then
        if xs.length == 4 then okU
        else .error "bbox must be an array of 4 integers [x1,y1,x2,y2]"
      else .error "bbox: elements must be integers"
  | some _ => .error "bbox: not an array"

/-- `CondAudio`: optional `person1`/`person2` string references. -/
def chkCondAudio (d : Dict) : Except String Unit :=
  match dget d "cond_audio" with
  | none => okU
  | some JVal.jnull => okU
  | some (JVal.jobj fs) => do
      optStrField fs "person1"
      optStrField fs "person2"
  | some _ => .error "cond_audio: not an object"

/-- `TtsAudio`: required non-empty `text`, optional voices. -/
def chkTtsAudio (d : Dict) : Except String Unit :=
  match dget d "tts_audio" with
  | none => okU
  | some JVal.jnull => okU
  | some (JVal.jobj fs) => do
      reqStrField fs "text" 1
      optStrField fs "human1_voice"
      optStrField fs "human2_voice"
  | some _ => .error "tts_audio: not an object"

/-- `OutputConfig`: `store` enum plus optional coordinates. -/
def validateOutputConfig (fs : Dict) : Except String Unit := do
  optEnumField fs "store" ["s3", "volume", "inline"] false
  optStrField fs "bucket"
  optStrField fs "region"
  optStrField fs "prefix"

def chkOutputConfig (d : Dict) : Except String Unit :=
  match dget d "output_config" with
  | none => okU
  | some (JVal.jobj fs) => validateOutputConfig fs
  | some _ => .error "output_config: not an object"

/-- `validate_audio_refs` model validator (same logic on `SingleInput`
and `BatchInput`): at least one audio source; two speakers require
`audio_type`. -/
def chkAudioRefs (d : Dict) : Except String Unit :=
  if isNoneLike d "cond_audio" && isNoneLike d "tts_audio" then
    .error "Either cond_audio or tts_audio must be provided."
  else
    match dget d "cond_audio" with
    | some (JVal.jobj fs) =>
        if !(isNoneLike fs "person2") && isNoneLike d "audio_type" then
          .error "audio_type is required when two speakers are provided (person1 & person2)."
        else okU
    | _ => okU

/-- `quant` set requires a truthy `quant_dir` (`not self.quant_dir` is
true for `None` and for the empty string). -/
def chkQuant (d : Dict) : Except String Unit :=
  if !(isNoneLike d "quant") &&
      (match dget d "quant_dir" with
       | some (JVal.jstr s) => s == ""
       | _ => true) then
    .error "quant_dir must be provided when quant is set."
  else okU

/-- The shared generation-parameter field checks of `SingleInput` and
`BatchInput`. -/
def chkGenParams (p : Dict) : Except String Unit := do
  chkCondAudio p
  chkTtsAudio p
  optEnumField p "audio_type" ["para", "add"] true
  chkBbox p
  optEnumField p "size" ["infinitetalk-480", "infinitetalk-720"] false
  optEnumField p "mode" ["clip", "streaming"] false
  chkFrameNum p
  optIntField p "max_frame_num" false
  optIntField p "sample_steps" false
  optNumField p "sample_text_guide_scale"
  optNumField p "sample_audio_guide_scale"
  optIntField p "motion_frame" false
  optNumField p "color_correction_strength"
  optBoolField p "use_teacache" false
  optNumField p "teacache_thresh"
  optBoolField p "use_apg" false
  optNumField p "apg_momentum"
  optNumField p "apg_norm_threshold"
  optIntField p "base_seed" false
  optIntField p "num_persistent_param_in_dit" true
  optBoolField p "offload_model" true
  optEnumField p "quant" ["int8", "fp8"] true
  optStrField p "quant_dir"
  optStrField p "n_prompt"
  chkAudioRefs p
  chkQuant p

/-- `SingleInput.model_validate` on a raw dict (unknown keys ignored). -/
def validateSingle (p : Dict) : Except String Unit := do
  reqStrField p "prompt" 1
  reqStrField p "cond_video" 0
  chkOutputConfig p
  chkGenParams p

/-- `BatchInput.model_validate`: same payload shape, but `prompt` has no
minimum length, `id` is an optional string and there is no nested
`output_config` field. -/
def validateBatchItem (p : Dict) : Except String Unit := do
  optStrField p "id"
  reqStrField p "prompt" 0
  reqStrField p "cond_video" 0
  chkGenParams p

/-! ### `worker/validator.py` — defaults merge and `normalize_and_validate` -/

/-- `apply_defaults_to_single`: shallow merge of the defaults' `generation`
sub-tree under the caller's fields; `output_config` is taken from the
defaults' `output` sub-tree only when the merged dict has none. -/
def apply_defaults_to_single (single defaults : Dict) : Dict :=
  if !(dmem (pyUnion (dgetObj defaults "generation") single) "output_config")
      && dmem defaults "output" then
    pyUnion (dgetObj defaults "generation") single ++
      [("output_config", (dget defaults "output").getD JVal.jnull)]
  else pyUnion (dgetObj defaults "generation") single

/-- `EnvelopeInput.check_single_or_batch`, batch arm: each raw item must
be a dict satisfying `BatchInput`. -/
def validateRawItems : List JVal → Except String Unit
  | [] => okU
  | JVal.jobj fs :: rest => do
      validateBatchItem fs
      validateRawItems rest
  | _ :: _ => .error "batch items must be objects"

/-- The normalization loop of the batch arm: merge defaults into each
item, re-validate, and collect the normalized dicts. -/
def normalizeItems (defaults : Dict) : List JVal → Except String (List Dict)
  | [] => .ok []
  | JVal.jobj fs :: rest => do
      let norm := apply_defaults_to_single fs defaults
      match validateBatchItem norm with
      | .error e => .error e
      | .ok _ => do
          let tail ← normalizeItems defaults rest
          .ok (norm :: tail)
  | _ :: _ => .error "batch items must be objects"

/-- The single arm of `normalize_and_validate`: pre-merge validation
(performed by `EnvelopeInput`), merge with the defaults, re-validation,
and return of the merged raw dict. -/
def normalize_single (payload defaults : Dict) : Except String Dict :=
  match validateSingle payload with
  | .error e => .error e
  | .ok _ =>
    match validateSingle (apply_defaults_to_single payload defaults) with
    | .error e => .error e
    | .ok _ => .ok (apply_defaults_to_single payload defaults)

/-- The batch arm of `normalize_and_validate`: the `batch` value must be a
non-empty list, each raw item is validated (by `EnvelopeInput`), then each
item is merged with the defaults and re-validated; an envelope-level
`output_config` is carried over onto the result. -/
def normalize_batch (payload : Dict) (bval : JVal) (defaults : Dict) :
    Except String Dict :=
  match bval with
  | JVal.jarr items =>
    if items.isEmpty then
      .error "batch must be a non-empty array of input objects."
    else
      match validateRawItems items with
      | .error e => .error e
      | .ok _ =>
        match normalizeItems defaults items with
        | .error e => .error e
        | .ok normItems =>
          .ok (match dget payload "output_config" with
               | some oc => [("batch", JVal.jarr (normItems.map JVal.jobj)),
                             ("output_config", oc)]
               | none => [("batch", JVal.jarr (normItems.map JVal.jobj))])
  | _ => .error "batch must be a non-empty array of input objects."

/-- Dispatch on the presence of a `batch` key. -/
def normalize_payload (payload defaults : Dict) : Except String Dict :=
  match dget payload "batch" with
  | some bval => normalize_batch payload bval defaults
  | none => normalize_single payload defaults

/-- `normalize_and_validate(envelope, defaults)`.  `EnvelopeInput`
requires an `input` dict; a `batch` key selects batch mode; the returned
value is the merged raw dict (not a pydantic dump), so schema defaults are
never materialized. -/
def normalize_and_validate (envelope defaults : Dict) : Except String Dict :=
  match dget envelope "input" with
  | some (JVal.jobj payload) => normalize_payload payload defaults
  | some _ => .error "input must be an object"
  | none => .error "input field required"

/-! ### `worker/storage.py` — `download_from_url` retry loop

Network transport is an oracle mapping the (1-based) attempt number to
either a download result or a raised exception.  Seconds are rationals. -/

def MAX_RETRIES : Nat := 3

def BACKOFF_SEC : ℚ := 3 / 2

/-- A completed download (`DownloadResult` without filesystem detail). -/
structure DownloadRes where
  bytesCount : Nat
deriving DecidableEq

/-- The `for attempt in range(1, MAX_RETRIES + 1)` body: a success returns
at once; a failure on the final attempt re-raises; otherwise the loop
sleeps `BACKOFF_SEC * attempt` seconds and moves on.  The returned list
records the sleeps performed, in order. -/
def tryAttempts (oracle : Nat → Except String DownloadRes) :
    List Nat → Except String DownloadRes × List ℚ
  | [] => (.error "Unknown download error", [])
  | a :: rest =>
    match oracle a with
    | .ok r => (.ok r, [])
    | .error e =>
      if a == MAX_RETRIES then (.error e, [])
      else
        let t := tryAttempts oracle rest
        (t.1, BACKOFF_SEC * a :: t.2)

/-- The http(s) arm of `download_from_url`. -/
def download_from_url_model (oracle : Nat → Except String DownloadRes) :
    Except String DownloadRes × List ℚ :=
  tryAttempts oracle (List.range' 1 MAX_RETRIES)

/-! ### `worker/pipeline.py` — `run_inference` with its single OOM retry

The Python exception classes that matter to the handler's catch clauses.
`torch.cuda.OutOfMemoryError` (in PyTorch) and the built-in
`NotImplementedError` are subclasses of `RuntimeError`; the built-in
`MemoryError` is not. -/

inductive PyExc where
  | runtimeError (msg : String)
  | cudaOOM (msg : String)
  | memoryError (msg : String)
  | valueError (msg : String)
  | notImplementedError (msg : String)
  | otherError (cls msg : String)
deriving DecidableEq

def PyExc.msg : PyExc → String
  | .runtimeError m => m
  | .cudaOOM m => m
  | .memoryError m => m
  | .valueError m => m
  | .notImplementedError m => m
  | .otherError _ m => m

/-- `except RuntimeError` matches `RuntimeError` and its subclasses
`torch.cuda.OutOfMemoryError` and `NotImplementedError` (the latter is
raised on the tts path, `pipeline.py` line 132). -/
def PyExc.isRuntimeErrorClass : PyExc → Bool
  | .runtimeError _ => true
  | .cudaOOM _ => true
  | .notImplementedError _ => true
  | _ => false

/-- `except MemoryError`. -/
def PyExc.isMemoryErrorClass : PyExc → Bool
  | .memoryError _ => true
  | _ => false

/-- `except torch.cuda.OutOfMemoryError` (the pipeline's retry clause). -/
def PyExc.isCudaOOMClass : PyExc → Bool
  | .cudaOOM _ => true
  | _ => false

/-- `type(exc).__name__`. -/
def PyExc.className : PyExc → String
  | .runtimeError _ => "RuntimeError"
  | .cudaOOM _ => "OutOfMemoryError"
  | .memoryError _ => "MemoryError"
  | .valueError _ => "ValueError"
  | .notImplementedError _ => "NotImplementedError"
  | .otherError c _ => c

/-- `int(params.get("sample_steps", 40))`; values are ints after
validation, so only the int case is modelled. -/
def sampleStepsOf (params : Dict) : Int :=
  match dget params "sample_steps" with
  | some (JVal.jint n) => n
  | _ => 40

/-- The reduced configuration built in the OOM handler of
`run_inference`: `size` forced to the 480p preset and `sample_steps`
capped at 8. -/
def reduceParams (params : Dict) : Dict :=
  dset (dset params "size" (JVal.jstr "infinitetalk-480"))
    "sample_steps" (JVal.jint (min 8 (sampleStepsOf params)))

/-- The external effects of one `run_inference` call: `_prepare_inputs`
(downloads and audio embedding), `_build_pipeline` and `_run_generate`
(both depend on the parameter dict), `save_video_ffmpeg` and the size of
the produced mp4. -/
structure PipelineWorld where
  prep : Except PyExc Unit
  build : Dict → Except PyExc Unit
  generate : Dict → Except PyExc Unit
  mux : Except PyExc Unit
  videoBytes : Nat

/-- `run_inference(params, workdir, logger)`: preprocess, build, generate
(with one retry on `torch.cuda.OutOfMemoryError` after rebuilding with
`reduceParams`), then mux.  The second component records the parameter
dicts passed to `_run_generate`, in order. -/
def run_inference (w : PipelineWorld) (params : Dict) :
    Except PyExc Nat × List Dict :=
  match w.prep with
  | .error e => (.error e, [])
  | .ok _ =>
    match w.build params with
    | .error e => (.error e, [])
    | .ok _ =>
      match w.generate params with
      | .ok _ =>
        (match w.mux with
         | .error e => (.error e, [params])
         | .ok _ => (.ok w.videoBytes, [params]))
      | .error e =>
        if e.isCudaOOMClass then
          let r := reduceParams params
          match w.build r with
          | .error e2 => (.error e2, [params])
          | .ok _ =>
            match w.generate r with
            | .error e2 => (.error e2, [params, r])
            | .ok _ =>
              (match w.mux with
               | .error e2 => (.error e2, [params, r])
               | .ok _ => (.ok w.videoBytes, [params, r]))
        else (.error e, [params])

/-! ### `worker/handler.py` — error taxonomy and `_run_single_item` -/

/-- The fixed retryability table. -/
def ERROR_RETRYABLE : List (String × Bool) :=
  [("E_INPUT_VALIDATION", false),
   ("E_DOWNLOAD_FAILED", true),
   ("E_AUDIO_EMBEDDING", true),
   ("E_PIPELINE_LOAD", false),
   ("E_OOM", false),
   ("E_FFMPEG", true),
   ("E_GENERATION_RUNTIME", false),
   ("E_UPLOAD", true),
   ("E_TIMEOUT", true)]

/-- `ERROR_RETRYABLE.get(code, False)`. -/
def retryableOf (code : String) : Bool :=
  (ERROR_RETRYABLE.lookup code).getD false

/-- `ErrorDetails` as produced by `build_error`. -/
structure ErrDetails where
  code : String
  message : String
  retryable : Bool
  at_stage : Option String
  cause_class : Option String
  cause_message : Option String
deriving DecidableEq

def build_error (code message : String) (retryable : Bool)
    (at_stage : Option String) (exc : Option PyExc) : ErrDetails :=
  { code := code, message := message, retryable := retryable,
    at_stage := at_stage,
    cause_class := exc.map PyExc.className,
    cause_message := exc.map PyExc.msg }

/-- The catch site of `_run_single_item`: `except RuntimeError` first
(which also captures `torch.cuda.OutOfMemoryError`), then
`except MemoryError`, then `except Exception` with substring inspection.
Returns `(code, message, at_stage)`. -/
def classifyItemExc (e : PyExc) : String × String × String :=
  if e.isRuntimeErrorClass then
    (if containsSub e.msg "Model paths" then "E_PIPELINE_LOAD"
     else "E_GENERATION_RUNTIME", e.msg, "runtime")
  else if e.isMemoryErrorClass then
    ("E_OOM", "Out of memory.", "generation")
  else
    ((if containsSub (lowerStr e.msg) "ffmpeg" then "E_FFMPEG"
      else if containsSub e.msg "WAV2VEC_DIR" ||
          containsSub (lowerStr e.msg) "audio embedding" then "E_AUDIO_EMBEDDING"
      else "E_GENERATION_RUNTIME"), e.msg, "generation")

/-- One item's result envelope.  Fields not touched by any claim
(timings, diagnostics, the echoed params and the video/artifact
descriptors) are omitted; `checkpoints` holds the recorded event names in
order and `progress` the `(stage, pct)` pairs passed to `_progress`. -/
structure ItemResult where
  status : String
  error : Option ErrDetails
  warnings : List String
  checkpoints : List String
  progress : List (String × Int)
deriving DecidableEq

/-- `_error_output`: look the retryable flag up in the fixed table and
build the error envelope. -/
def errorOutput (e : PyExc) (checkpoints : List String)
    (progress : List (String × Int)) : ItemResult :=
  let c := classifyItemExc e
  { status := "error",
    error := some (build_error c.1 c.2.1 (retryableOf c.1) (some c.2.2) (some e)),
    warnings := [],
    checkpoints := checkpoints,
    progress := progress }

/-- `out_cfg.get("store", "s3") == "inline"`; a non-string `store` never
equals `"inline"`. -/
def isInlineStore (outCfg : Dict) : Bool :=
  match dget outCfg "store" with
  | some (JVal.jstr s) => s == "inline"
  | _ => false

/-- External effects visible to `_run_single_item`: the pipeline plus the
presigned-upload status code and whether the inline base64 re-read of the
finished file succeeds. -/
structure ItemWorld where
  pipe : PipelineWorld
  uploadStatus : Nat
  inlineReadOk : Bool

/-- Checkpoints emitted before and during generation, with their
percentages (`cp` calls of `_run_single_item`). -/
def preGenProgress : List (String × Int) :=
  [("validated", 2), ("models_loading", 15), ("models_ready", 18),
   ("preprocessing_done", 19), ("generation_start", 20)]

def inlineWarning : String :=
  "Returning inline base64 video. This is not recommended for large outputs."

def localPathWarning : String :=
  "No presigned URL provided; returning local path. Configure S3 uploads for production."

/-- `_run_single_item(job_id, cid, params, workdir)`.  Validation happened
upstream in `run`; the function announces the fixed checkpoint sequence,
calls `run_inference`, uploads if a presigned `video_url` is configured
(a non-2xx status raises a `RuntimeError` that the generic catch site
classifies), and assembles the success envelope. -/
def midProgress : List (String × Int) :=
  preGenProgress ++ [("postprocess_mux", 90), ("uploading_artifacts", 92)]

def runSingleItem (w : ItemWorld) (params : Dict) : ItemResult :=
  match (run_inference w.pipe params).1 with
  | .error e => errorOutput e (preGenProgress.map Prod.fst) preGenProgress
  | .ok _ =>
    if dmem (dgetObj params "output_config") "video_url" then
      if w.uploadStatus / 100 == 2 then
        { status := "success", error := none, warnings := [],
          checkpoints := (midProgress ++ [("completed", 100)]).map Prod.fst,
          progress := midProgress ++ [("completed", 100)] }
      else
        errorOutput
          (PyExc.runtimeError
            ("Upload to presigned URL failed with status " ++ toString w.uploadStatus))
          (midProgress.map Prod.fst) midProgress
    else
      { status := "success", error := none,
        warnings :=
          if isInlineStore (dgetObj params "output_config") then
            (if w.inlineReadOk then [inlineWarning] else [])
          else [localPathWarning],
        checkpoints := (midProgress ++ [("completed", 100)]).map Prod.fst,
        progress := midProgress ++ [("completed", 100)] }

/-! ### `worker/handler.py` — the batch loop of `run` -/

/-- `item.get("id") or f"item-{idx}"` (an empty string is falsy; after
validation `id` is a string or absent). -/
def itemIdOf (item : Dict) (idx : Nat) : String :=
  match dget item "id" with
  | some (JVal.jstr s) => if s == "" then "item-" ++ toString idx else s
  | _ => "item-" ++ toString idx

structure BatchResult where
  status : String
  items : List (String × ItemResult)
deriving DecidableEq

/-- The batch arm of `run`: every item is executed in order with its own
workdir and outcome; the top-level status is `success` only when every
item's result has status `success`, else `partial`. -/
def runBatch (ws : Nat → ItemWorld) (items : List Dict) : BatchResult :=
  let outItems := items.enum.map
    (fun p => (itemIdOf p.2 p.1, runSingleItem (ws p.1) p.2))
  { status :=
      if outItems.all (fun x => x.2.status == "success") then "success"
      else "partial",
    items := outItems }

/-! ### `worker/handler.py` — RNG seeding in `run`

`run` seeds exactly when the normalized payload has a top-level
`base_seed` that is a non-negative int, and it does so once, before the
batch/single dispatch.  The order of `_seed_everything` and item
executions is modelled as an event trace. -/

inductive RunEvent where
  | seeded (s : Int)
  | itemStarted (idx : Nat)
deriving DecidableEq

def RunEvent.isSeed : RunEvent → Bool
  | .seeded _ => true
  | _ => false

/-- Lines 273–277 of `run`: `if "base_seed" in normalized: seed =
normalized.get("base_seed", 42); if isinstance(seed, int) and seed >= 0:
_seed_everything(seed)`. -/
def seedPhase (normalized : Dict) : List RunEvent :=
  if dmem normalized "base_seed" then
    match dget normalized "base_seed" with
    | some (JVal.jint s) => if 0 ≤ s then [.seeded s] else []
    | _ => []
  else []

/-- The per-item executions that follow (batch loop or single call). -/
def itemPhase (normalized : Dict) : List RunEvent :=
  if dmem normalized "batch" then
    match dget normalized "batch" with
    | some (JVal.jarr items) => (List.range items.length).map RunEvent.itemStarted
    | _ => []
  else [.itemStarted 0]

def runEventTrace (normalized : Dict) : List RunEvent :=
  seedPhase normalized ++ itemPhase normalized

/-! ### `ui/app.py` — adaptive polling interval -/

def POLL_INIT_SEC : ℚ := 2
def POLL_MAX_SEC : ℚ := 6
def POLL_BACKOFF_AFTER_S : ℚ := 120

/-- The interval recomputed on each iteration of `_poll_status_stream`:
`min(POLL_MAX_SEC, POLL_INIT_SEC + (elapsed / POLL_BACKOFF_AFTER_S) *
(POLL_MAX_SEC - POLL_INIT_SEC))`. -/
def pollInterval (elapsed : ℚ) : ℚ :=
  min POLL_MAX_SEC
    (POLL_INIT_SEC + (elapsed / POLL_BACKOFF_AFTER_S) * (POLL_MAX_SEC - POLL_INIT_SEC))

/-! ### Concrete sample inputs and worlds used by witnesses -/

/-- The raw items of a batch-mode normalized payload. -/
def batchItems (normalized : Dict) : List JVal :=
  match dget normalized "batch" with
  | some (JVal.jarr xs) => xs
  | _ => []

/-- A minimal valid single payload. -/
def samplePayload : Dict :=
  [("prompt", JVal.jstr "hello"),
   ("cond_video", JVal.jstr "https://x/v.mp4"),
   ("cond_audio", JVal.jobj [("person1", JVal.jstr "https://x/a.wav")])]

def sampleEnvelope : Dict := [("input", JVal.jobj samplePayload)]

/-- The same payload with an `id`, for batch items. -/
def samplePayloadWithId : Dict :=
  ("id", JVal.jstr "alpha") :: samplePayload

/-- A batch envelope with two items. -/
def sampleBatchEnvelope : Dict :=
  [("input", JVal.jobj
    [("batch", JVal.jarr [JVal.jobj samplePayloadWithId, JVal.jobj samplePayload])])]

/-- A defaults document with a generation sub-tree and an output store. -/
def sampleDefaults : Dict :=
  [("generation", JVal.jobj [("sample_steps", JVal.jint 30)]),
   ("output", JVal.jobj [("store", JVal.jstr "s3")])]

/-- A pipeline in which every stage succeeds. -/
def okPipeline : PipelineWorld :=
  { prep := .ok (), build := fun _ => .ok (), generate := fun _ => .ok (),
    mux := .ok (), videoBytes := 1024 }

def okItemWorld : ItemWorld :=
  { pipe := okPipeline, uploadStatus := 200, inlineReadOk := true }

/-- A pipeline whose generation raises CUDA OOM on every attempt. -/
def oomPipeline : PipelineWorld :=
  { okPipeline with generate := (fun _ => Except.error
      (PyExc.cudaOOM "CUDA out of memory. Tried to allocate 20.00 GiB")) }

def oomItemWorld : ItemWorld := { okItemWorld with pipe := oomPipeline }

/-- A pipeline whose preprocessing raises the repo's own
`RuntimeError("WAV2VEC_DIR env var is required for audio embedding.")`
(`_prepare_inputs` in `worker/pipeline.py`). -/
def wavPipeline : PipelineWorld :=
  { okPipeline with prep := (Except.error
      (PyExc.runtimeError "WAV2VEC_DIR env var is required for audio embedding.")) }

def wavItemWorld : ItemWorld := { okItemWorld with pipe := wavPipeline }

/-- A pipeline whose generation raises a generic non-RuntimeError
exception. -/
def failPipeline : PipelineWorld :=
  { okPipeline with generate := fun _ => .error (.otherError "OSError" "disk unhappy") }

def failItemWorld : ItemWorld := { okItemWorld with pipe := failPipeline }

/-- The §4.4 state machine's ten stage names, as the claim lists them. -/
def specTenStageNames : List String :=
  ["RECEIVED", "VALIDATED", "MODELS_LOADING", "MODELS_READY",
   "PREPROCESSING_DONE", "GENERATION_START", "GENERATION_DONE",
   "POSTPROCESS_MUX", "UPLOADING_ARTIFACTS", "COMPLETED"]

/-- Batch sample: the first item's world fails in preprocessing, the
second succeeds. -/
def ws0 : Nat → ItemWorld := fun i => if i == 0 then wavItemWorld else okItemWorld

def items0 : List Dict := [samplePayloadWithId, samplePayload]

/-- The full progress sequence a successful item emits. -/
def successProgress : List (String × Int) :=
  preGenProgress ++
    [("postprocess_mux", 90), ("uploading_artifacts", 92), ("completed", 100)]

/-! ### Basic dictionary lemmas -/

theorem dget_append (a b : Dict) (k : String) :
    dget (a ++ b) k = match dget a k with
      | some v => some v
      | none => dget b k := by
  induction a with
  | nil => simp [dget]
  | cons kv rest ih =>
    obtain ⟨k0, v0⟩ := kv
    by_cases h : k0 == k <;> simp [dget, h, ih]

theorem dmem_append (a b : Dict) (k : String) :
    dmem (a ++ b) k = (dmem a k || dmem b k) := by
  unfold dmem
  rw [dget_append]
  cases dget a k <;> simp

theorem dmem_iff_keys (d : Dict) (k : String) :
    dmem d k = true ↔ k ∈ dkeys d := by
  induction d with
  | nil => simp [dmem, dget, dkeys]
  | cons kv rest ih =>
    obtain ⟨k0, v0⟩ := kv
    by_cases h : k0 = k
    · subst h
      simp [dmem, dget, dkeys]
    · simp only [dmem, dget, beq_iff_eq, if_neg h, dkeys, List.map_cons,
        List.mem_cons] at *
      rw [ih]
      constructor
      · exact Or.inr
      · intro hm
        rcases hm with hm | hm
        · exact absurd hm.symm h
        · exact hm

theorem dget_eq_none_of_not_mem (d : Dict) (k : String)
    (h : dmem d k = false) : dget d k = none := by
  unfold dmem at h
  cases hv : dget d k with
  | none => rfl
  | some v => rw [hv] at h; simp at h

/-- With distinct keys, looking up a key of a key-preserving map finds
the image of the unique binding. -/
theorem dget_map_of_mem (a : Dict) (g : String × JVal → JVal) (k : String)
    (v : JVal) (hnd : (dkeys a).Nodup) (hm : (k, v) ∈ a) :
    dget (a.map (fun kv => (kv.1, g kv))) k = some (g (k, v)) := by
  induction a with
  | nil => simp at hm
  | cons kv rest ih =>
    obtain ⟨k0, v0⟩ := kv
    simp only [dkeys, List.map_cons, List.nodup_cons] at hnd
    rcases List.mem_cons.mp hm with heq | htail
    · have hk : k0 = k := (congrArg Prod.fst heq).symm
      have hv : v0 = v := (congrArg Prod.snd heq).symm
      subst hk
      subst hv
      simp [dget]
    · have hk0 : ¬ k0 = k := by
        intro hcon
        subst hcon
        exact hnd.1 (by
          have : k0 ∈ dkeys rest := List.mem_map.mpr ⟨(k0, v), htail, rfl⟩
          simpa [dkeys] using this)
      simp only [List.map_cons, dget, beq_iff_eq, if_neg hk0]
      exact ih hnd.2 htail

theorem dget_filter_keyPred (d : Dict) (p : String → Bool) (k : String)
    (hp : p k = true) :
    dget (d.filter (fun kv => p kv.1)) k = dget d k := by
  induction d with
  | nil => simp
  | cons kv rest ih =>
    obtain ⟨k0, v0⟩ := kv
    by_cases h : k0 == k
    · have : k0 = k := beq_iff_eq.mp h
      subst this
      simp [List.filter, hp, dget]
    · by_cases hp0 : p k0 <;> simp [List.filter, hp0, dget, h, ih]

/-! ### Algebra of `pyUnion` (the `{**defaults, **caller}` merge) -/

theorem dmem_mapFixKey (a : Dict) (g : String × JVal → JVal) (k : String) :
    dmem (a.map (fun kv => (kv.1, g kv))) k = dmem a k := by
  induction a with
  | nil => rfl
  | cons kv rest ih =>
    obtain ⟨k0, v0⟩ := kv
    by_cases h : k0 = k
    · simp [dmem, dget, h]
    · simp only [List.map_cons, dmem, dget, beq_iff_eq, if_neg h]
      exact ih

theorem dmem_filterKey (b : Dict) (q : String → Bool) (k : String) :
    dmem (b.filter (fun kv => q kv.1)) k = (q k && dmem b k) := by
  induction b with
  | nil => simp [dmem, dget]
  | cons kv rest ih =>
    obtain ⟨k0, v0⟩ := kv
    by_cases h : k0 = k
    · subst h
      by_cases hq : q k0
      · simp [List.filter_cons, hq, dmem, dget]
      · simp only [List.filter_cons, hq, Bool.false_eq_true, if_neg,
          ite_false, dmem, dget] at *
        simp [ih, hq]
    · by_cases hq : q k0
      · simp only [List.filter_cons, hq, ite_true, dmem, dget, beq_iff_eq,
          if_neg h]
        exact ih
      · simp only [List.filter_cons, hq, Bool.false_eq_true, ite_false]
        rw [ih]
        simp only [dmem, dget, beq_iff_eq, if_neg h]

theorem dmem_pyUnion (a b : Dict) (k : String) :
    dmem (pyUnion a b) k = (dmem a k || dmem b k) := by
  unfold pyUnion
  rw [dmem_append, dmem_mapFixKey]
  have hf := dmem_filterKey b (fun s => !(dmem a s)) k
  simp only at hf
  rw [hf]
  cases dmem a k <;> cases dmem b k <;> simp

theorem dget_pyUnion_of_mem (a b : Dict) (k : String) (v : JVal)
    (hnd : (dkeys a).Nodup) (hm : (k, v) ∈ a) :
    dget (pyUnion a b) k = some ((dget b k).getD v) := by
  unfold pyUnion
  rw [dget_append]
  rw [dget_map_of_mem a (fun kv => (dget b kv.1).getD kv.2) k v hnd hm]

/-- Re-merging an already merged dict over the same defaults changes
nothing: `{**a, **{**a, **b}} = {**a, **b}`. -/
theorem pyUnion_absorb (a b : Dict) (hnd : (dkeys a).Nodup) :
    pyUnion a (pyUnion a b) = pyUnion a b := by
  conv_lhs => rw [pyUnion]
  have hmap : a.map (fun kv => (kv.1, (dget (pyUnion a b) kv.1).getD kv.2)) =
      a.map (fun kv => (kv.1, (dget b kv.1).getD kv.2)) := by
    apply List.map_congr_left
    intro kv hkv
    obtain ⟨k, v⟩ := kv
    rw [dget_pyUnion_of_mem a b k v hnd hkv]
    rfl
  have hfil : (pyUnion a b).filter (fun kv => !(dmem a kv.1)) =
      b.filter (fun kv => !(dmem a kv.1)) := by
    unfold pyUnion
    rw [List.filter_append]
    have h1 : (a.map (fun kv => (kv.1, (dget b kv.1).getD kv.2))).filter
        (fun kv => !(dmem a kv.1)) = [] := by
      rw [List.filter_eq_nil_iff]
      intro kv hkv
      rcases List.mem_map.mp hkv with ⟨kv0, hkv0, hEq⟩
      have hk : kv.1 = kv0.1 := by rw [← hEq]
      have : dmem a kv.1 = true := by
        rw [hk, dmem_iff_keys]
        exact List.mem_map.mpr ⟨kv0, hkv0, rfl⟩
      simp [this]
    have h2 : (b.filter (fun kv => !(dmem a kv.1))).filter
        (fun kv => !(dmem a kv.1)) = b.filter (fun kv => !(dmem a kv.1)) := by
      rw [List.filter_filter]
      apply List.filter_congr
      intro kv _
      cases dmem a kv.1 <;> simp
    rw [h1, h2, List.nil_append]
  rw [hmap, hfil]
  rfl

/-- Appending a fresh key on the right distributes over the merge. -/
theorem pyUnion_append_single (a c : Dict) (k0 : String) (v : JVal)
    (h : dmem a k0 = false) :
    pyUnion a (c ++ [(k0, v)]) = pyUnion a c ++ [(k0, v)] := by
  unfold pyUnion
  have hmap : a.map (fun kv => (kv.1, (dget (c ++ [(k0, v)]) kv.1).getD kv.2)) =
      a.map (fun kv => (kv.1, (dget c kv.1).getD kv.2)) := by
    apply List.map_congr_left
    intro kv hkv
    have hne : (k0 == kv.1) = false := by
      have hmem : dmem a kv.1 = true := by
        rw [dmem_iff_keys]
        exact List.mem_map.mpr ⟨kv, hkv, rfl⟩
      by_contra hcon
      have : k0 = kv.1 := beq_iff_eq.mp (Bool.not_eq_false _ |>.mp hcon)
      rw [← this] at hmem
      rw [h] at hmem
      exact Bool.false_ne_true hmem
    rw [dget_append]
    cases hc : dget c kv.1 <;> simp [dget, hne]
  have hfil : (c ++ [(k0, v)]).filter (fun kv => !(dmem a kv.1)) =
      c.filter (fun kv => !(dmem a kv.1)) ++ [(k0, v)] := by
    rw [List.filter_append]
    congr 1
    simp [List.filter, h]
  rw [hmap, hfil, List.append_assoc]

/-! ### Claim theorems -/

/-- C2: validation accepts `frame_num` if and only if `frame_num > 0` and
`(frame_num - 1) mod 4 = 0`; in particular 81 is accepted while 80, 0 and
-5 are rejected. -/
theorem frame_num_accepted_iff :
    (∀ v : Int, validate_frame_num_4n_plus_1 v = .ok v ↔
      (0 < v ∧ (v - 1) % 4 = 0))
    ∧ validate_frame_num_4n_plus_1 81 = .ok 81
    ∧ validate_frame_num_4n_plus_1 80 = .error "frame_num must be 4n+1 and positive"
    ∧ validate_frame_num_4n_plus_1 0 = .error "frame_num must be 4n+1 and positive"
    ∧ validate_frame_num_4n_plus_1 (-5) = .error "frame_num must be 4n+1 and positive" := by
  refine ⟨fun v => ?_, rfl, rfl, rfl, rfl⟩
  unfold validate_frame_num_4n_plus_1
  split
  next h =>
    simp only [Bool.or_eq_true, decide_eq_true_eq, bne_iff_ne, ne_eq] at h
    constructor
    · intro hc
      exact absurd hc (by simp)
    · rintro ⟨h1, h2⟩
      rcases h with h | h
      · omega
      · exact absurd h2 h
  next h =>
    simp only [Bool.or_eq_true, decide_eq_true_eq, bne_iff_ne, ne_eq,
      not_or, not_not] at h
    simp only [true_iff]
    exact ⟨by omega, h.2⟩

/-- C7: a remote fetch makes at most 3 attempts, sleeps
`BACKOFF_SEC * attempt` (linearly increasing) between failed attempts,
and when the final attempt fails it propagates that failure. -/
theorem download_retry_linear_backoff (oracle : Nat → Except String DownloadRes)
    (e1 e2 e3 : String)
    (h1 : oracle 1 = .error e1) (h2 : oracle 2 = .error e2)
    (h3 : oracle 3 = .error e3) :
    download_from_url_model oracle = (.error e3, [3 / 2, 3])
    ∧ (∀ oc : Nat → Except String DownloadRes,
        (download_from_url_model oc).2.length ≤ MAX_RETRIES - 1)
    ∧ ((3 : ℚ) / 2) < 3 ∧ BACKOFF_SEC * (2 : ℚ) - BACKOFF_SEC * 1 = BACKOFF_SEC := by
  refine ⟨?_, ?_, by norm_num, by norm_num [BACKOFF_SEC]⟩
  · show tryAttempts oracle [1, 2, 3] = _
    simp only [tryAttempts, h1, h2, h3, MAX_RETRIES]
    norm_num [BACKOFF_SEC]
  · intro oc
    show (tryAttempts oc [1, 2, 3]).2.length ≤ MAX_RETRIES - 1
    cases ho1 : oc 1 with
    | ok r => simp [tryAttempts, ho1]
    | error e =>
      cases ho2 : oc 2 with
      | ok r => simp [tryAttempts, ho1, ho2, MAX_RETRIES]
      | error e' =>
        cases ho3 : oc 3 with
        | ok r => simp [tryAttempts, ho1, ho2, ho3, MAX_RETRIES]
        | error e'' => simp [tryAttempts, ho1, ho2, ho3, MAX_RETRIES]

theorem download_retry_linear_backoff_witness :
    download_from_url_model (fun n => .error ("boom " ++ toString n)) =
      (.error "boom 3", [3 / 2, 3])
    ∧ (∀ oc : Nat → Except String DownloadRes,
        (download_from_url_model oc).2.length ≤ MAX_RETRIES - 1)
    ∧ ((3 : ℚ) / 2) < 3 ∧ BACKOFF_SEC * (2 : ℚ) - BACKOFF_SEC * 1 = BACKOFF_SEC :=
  download_retry_linear_backoff (fun n => .error ("boom " ++ toString n))
    "boom 1" "boom 2" "boom 3" rfl rfl rfl

/-- C8: the polling interval starts at the configured minimum, grows
monotonically with elapsed time, equals the maximum once the threshold is
passed, and always stays within `[POLL_INIT_SEC, POLL_MAX_SEC]`. -/
theorem poll_interval_adaptive :
    pollInterval 0 = POLL_INIT_SEC
    ∧ (∀ e1 e2 : ℚ, e1 ≤ e2 → pollInterval e1 ≤ pollInterval e2)
    ∧ (∀ e : ℚ, POLL_BACKOFF_AFTER_S ≤ e → pollInterval e = POLL_MAX_SEC)
    ∧ (∀ e : ℚ, 0 ≤ e →
        POLL_INIT_SEC ≤ pollInterval e ∧ pollInterval e ≤ POLL_MAX_SEC) := by
  refine ⟨?_, ?_, ?_, ?_⟩
  · norm_num [pollInterval, POLL_INIT_SEC, POLL_MAX_SEC, POLL_BACKOFF_AFTER_S]
  · intro e1 e2 h
    unfold pollInterval
    exact min_le_min (le_refl _) (by
      unfold POLL_INIT_SEC POLL_MAX_SEC POLL_BACKOFF_AFTER_S
      linarith)
  · intro e h
    unfold pollInterval
    apply min_eq_left
    unfold POLL_INIT_SEC POLL_MAX_SEC POLL_BACKOFF_AFTER_S at *
    linarith
  · intro e h
    constructor
    · unfold pollInterval
      apply le_min
      · norm_num [POLL_INIT_SEC, POLL_MAX_SEC]
      · unfold POLL_INIT_SEC POLL_MAX_SEC POLL_BACKOFF_AFTER_S
        linarith
    · exact min_le_left _ _

theorem poll_interval_adaptive_witness :
    pollInterval 60 ≤ pollInterval 90
    ∧ pollInterval 200 = POLL_MAX_SEC
    ∧ (POLL_INIT_SEC ≤ pollInterval 30 ∧ pollInterval 30 ≤ POLL_MAX_SEC) :=
  ⟨poll_interval_adaptive.2.1 60 90 (by norm_num),
   poll_interval_adaptive.2.2.1 200 (by norm_num [POLL_BACKOFF_AFTER_S]),
   poll_interval_adaptive.2.2.2 30 (by norm_num)⟩

/-- C6: when the normalized payload carries a non-negative integer
`base_seed` at top level (and its batch items, if any, carry none), the
RNG sources are seeded exactly once and before any item executes. -/
theorem seed_once_before_items (normalized : Dict) (s : Int)
    (hseed : dget normalized "base_seed" = some (JVal.jint s))
    (hpos : 0 ≤ s)
    (hnoItemSeeds : ∀ v ∈ batchItems normalized, ∀ fs,
      v = JVal.jobj fs → dmem fs "base_seed" = false) :
    runEventTrace normalized = RunEvent.seeded s :: itemPhase normalized
    ∧ (runEventTrace normalized).countP RunEvent.isSeed = 1
    ∧ ∀ ev ∈ itemPhase normalized, ev.isSeed = false := by
  have hsp : seedPhase normalized = [RunEvent.seeded s] := by
    unfold seedPhase
    rw [if_pos (by unfold dmem; rw [hseed]; rfl)]
    rw [hseed]
    simp only [hpos, if_pos]
  have hitems : ∀ ev ∈ itemPhase normalized, ev.isSeed = false := by
    intro ev hev
    unfold itemPhase at hev
    by_cases hb : dmem normalized "batch"
    · rw [if_pos hb] at hev
      rcases hcase : dget normalized "batch" with _ | bval
      · rw [hcase] at hev
        simp at hev
      · rw [hcase] at hev
        cases bval with
        | jarr xs =>
          rcases List.mem_map.mp hev with ⟨i, _, hEq⟩
          rw [← hEq]
          rfl
        | jnull => simp at hev
        | jbool b => simp at hev
        | jint n => simp at hev
        | jnum q => simp at hev
        | jstr t => simp at hev
        | jobj fs => simp at hev
    · rw [if_neg hb] at hev
      rcases List.mem_singleton.mp hev with rfl
      rfl
  refine ⟨?_, ?_, hitems⟩
  · unfold runEventTrace
    rw [hsp]
    rfl
  · unfold runEventTrace
    rw [hsp, List.countP_append]
    have : (itemPhase normalized).countP RunEvent.isSeed = 0 :=
      List.countP_eq_zero.mpr (by
        intro ev hev
        simp [hitems ev hev])
    rw [this]
    rfl

theorem seed_once_before_items_witness :
    runEventTrace [("prompt", JVal.jstr "hi"), ("base_seed", JVal.jint 7)] =
      RunEvent.seeded 7 ::
        itemPhase [("prompt", JVal.jstr "hi"), ("base_seed", JVal.jint 7)]
    ∧ (runEventTrace [("prompt", JVal.jstr "hi"), ("base_seed", JVal.jint 7)]).countP
        RunEvent.isSeed = 1
    ∧ ∀ ev ∈ itemPhase [("prompt", JVal.jstr "hi"), ("base_seed", JVal.jint 7)],
        ev.isSeed = false :=
  seed_once_before_items _ 7 rfl (by norm_num)
    (by intro v hv fs hfs; simp [batchItems, dget] at hv)

/-- C1 (counterexample): a fully successful single item records exactly
eight checkpoints — `received` and `generation_done` are never recorded —
so the checkpoint list is not the ten §4.4 stage names. -/
theorem checkpoints_not_ten_stage_names :
    (runSingleItem okItemWorld samplePayload).status = "success"
    ∧ (runSingleItem okItemWorld samplePayload).checkpoints =
        ["validated", "models_loading", "models_ready", "preprocessing_done",
         "generation_start", "postprocess_mux", "uploading_artifacts", "completed"]
    ∧ (runSingleItem okItemWorld samplePayload).checkpoints.length = 8
    ∧ specTenStageNames.length = 10
    ∧ (runSingleItem okItemWorld samplePayload).checkpoints.contains "generation_done"
        = false
    ∧ (runSingleItem okItemWorld samplePayload).checkpoints.contains "received" = false
    ∧ (runSingleItem okItemWorld samplePayload).checkpoints ≠
        specTenStageNames.map lowerStr := by
  refine ⟨rfl, rfl, rfl, rfl, rfl, rfl, by decide⟩

/-- C1 (amended): every successful single item records exactly the eight
ordered checkpoints `validated, models_loading, models_ready,
preprocessing_done, generation_start, postprocess_mux,
uploading_artifacts, completed`, with non-decreasing progress percentages
ending at 100. -/
theorem success_checkpoint_sequence (w : ItemWorld) (p : Dict)
    (h : (runSingleItem w p).status = "success") :
    (runSingleItem w p).progress = successProgress
    ∧ (runSingleItem w p).checkpoints =
        ["validated", "models_loading", "models_ready", "preprocessing_done",
         "generation_start", "postprocess_mux", "uploading_artifacts", "completed"]
    ∧ List.Chain' (· ≤ ·) (successProgress.map Prod.snd)
    ∧ (successProgress.map Prod.snd).getLast? = some 100 := by
  have hchain : List.Chain' (· ≤ ·) (successProgress.map Prod.snd) := by
    norm_num [successProgress, preGenProgress, List.chain'_cons]
  have hlast : (successProgress.map Prod.snd).getLast? = some 100 := rfl
  unfold runSingleItem at h ⊢
  cases hri : (run_inference w.pipe p).1 with
  | error e =>
    rw [hri] at h
    simp [errorOutput] at h
  | ok n =>
    simp only [hri] at h ⊢
    split_ifs at h ⊢ <;>
      first
        | exact ⟨rfl, rfl, hchain, hlast⟩
        | simp [errorOutput] at h

theorem success_checkpoint_sequence_witness :
    (runSingleItem okItemWorld samplePayload).progress = successProgress
    ∧ (runSingleItem okItemWorld samplePayload).checkpoints =
        ["validated", "models_loading", "models_ready", "preprocessing_done",
         "generation_start", "postprocess_mux", "uploading_artifacts", "completed"]
    ∧ List.Chain' (· ≤ ·) (successProgress.map Prod.snd)
    ∧ (successProgress.map Prod.snd).getLast? = some 100 :=
  success_checkpoint_sequence okItemWorld samplePayload rfl

/-- `_run_single_item` always returns an envelope whose status is either
`success` or `error` (its catch clauses swallow every exception). -/
theorem runSingleItem_status_cases (w : ItemWorld) (p : Dict) :
    (runSingleItem w p).status = "success" ∨ (runSingleItem w p).status = "error" := by
  unfold runSingleItem
  cases (run_inference w.pipe p).1 with
  | error e => right; rfl
  | ok n =>
    split_ifs <;> first | (left; rfl) | (right; rfl)

/-- C3: every batch item is executed and produces its own result — the
i-th result depends only on the i-th item and its own outcome — and the
batch status is `success` exactly when all items succeeded and `partial`
exactly when at least one item failed. -/
theorem batch_independent_items_and_status (ws : Nat → ItemWorld)
    (items : List Dict) :
    (runBatch ws items).items.length = items.length
    ∧ (runBatch ws items).items =
        items.enum.map (fun q => (itemIdOf q.2 q.1, runSingleItem (ws q.1) q.2))
    ∧ (∀ (ws' : Nat → ItemWorld) (i : Nat), ws' i = ws i →
        (runBatch ws' items).items[i]? = (runBatch ws items).items[i]?)
    ∧ ((runBatch ws items).status = "success" ↔
        ∀ r ∈ (runBatch ws items).items, r.2.status = "success")
    ∧ ((runBatch ws items).status = "partial" ↔
        ∃ r ∈ (runBatch ws items).items, r.2.status = "error") := by
  have hitems : (runBatch ws items).items =
      items.enum.map (fun q => (itemIdOf q.2 q.1, runSingleItem (ws q.1) q.2)) := rfl
  have hlen : (runBatch ws items).items.length = items.length := by
    rw [hitems, List.length_map, List.enum_length]
  have hdich : ∀ r ∈ (runBatch ws items).items,
      r.2.status = "success" ∨ r.2.status = "error" := by
    intro r hr
    rw [hitems] at hr
    rcases List.mem_map.mp hr with ⟨q, _, rfl⟩
    exact runSingleItem_status_cases (ws q.1) q.2
  refine ⟨hlen, hitems, ?_, ?_, ?_⟩
  · intro ws' i hi
    have h1 : (runBatch ws' items).items =
        items.enum.map (fun q => (itemIdOf q.2 q.1, runSingleItem (ws' q.1) q.2)) := rfl
    rw [h1, hitems, List.getElem?_map, List.getElem?_map, List.getElem?_enum]
    cases items[i]? with
    | none => rfl
    | some it => simp [hi]
  · show (if (runBatch ws items).items.all (fun x => x.2.status == "success")
        then "success" else "partial") = "success" ↔ _
    by_cases hall : (runBatch ws items).items.all (fun x => x.2.status == "success")
    · rw [if_pos hall]
      constructor
      · intro _ r hr
        exact eq_of_beq (List.all_eq_true.mp hall r hr)
      · intro _
        rfl
    · rw [if_neg hall]
      constructor
      · intro hcon
        exact absurd hcon (by decide)
      · intro hforall
        exact absurd (List.all_eq_true.mpr fun r hr => beq_iff_eq.mpr (hforall r hr)) hall
  · show (if (runBatch ws items).items.all (fun x => x.2.status == "success")
        then "success" else "partial") = "partial" ↔ _
    by_cases hall : (runBatch ws items).items.all (fun x => x.2.status == "success")
    · rw [if_pos hall]
      constructor
      · intro hcon
        exact absurd hcon (by decide)
      · rintro ⟨r, hr, herr⟩
        have := eq_of_beq (List.all_eq_true.mp hall r hr)
        rw [herr] at this
        exact absurd this (by decide)
    · rw [if_neg hall]
      constructor
      · intro _
        have : ∃ r ∈ (runBatch ws items).items, ¬ (r.2.status == "success") = true := by
          by_contra hcon
          push_neg at hcon
          exact hall (List.all_eq_true.mpr fun r hr => by
            have := hcon r hr
            exact Bool.not_eq_false _ |>.mp (by simpa using this))
        rcases this with ⟨r, hr, hne⟩
        refine ⟨r, hr, ?_⟩
        rcases hdich r hr with hs | he
        · exact absurd (beq_iff_eq.mpr hs) hne
        · exact he
      · intro _
        rfl

theorem batch_independent_items_and_status_witness :
    (runBatch ws0 items0).status = "partial"
    ∧ (runBatch ws0 items0).items.length = 2 :=
  ⟨(batch_independent_items_and_status ws0 items0).2.2.2.2.mpr
      ⟨("alpha", runSingleItem wavItemWorld samplePayloadWithId),
        by decide, by decide⟩,
   (batch_independent_items_and_status ws0 items0).1⟩

theorem dget_mapReplace (d : Dict) (k : String) (v : JVal)
    (h : dmem d k = true) :
    dget (d.map (fun kv => if kv.1 == k then (k, v) else kv)) k = some v := by
  induction d with
  | nil => simp [dmem, dget] at h
  | cons kv rest ih =>
    obtain ⟨k0, v0⟩ := kv
    simp only [List.map_cons]
    cases hk : (k0 == k) with
    | true => simp [dget]
    | false =>
      have h' : dmem rest k = true := by
        simpa [dmem, dget, hk] using h
      simpa [dget, hk] using ih h'

theorem dget_mapReplace_other (d : Dict) (k k' : String) (v : JVal)
    (hne : ¬ k' = k) :
    dget (d.map (fun kv => if kv.1 == k then (k, v) else kv)) k' = dget d k' := by
  induction d with
  | nil => rfl
  | cons kv rest ih =>
    obtain ⟨k0, v0⟩ := kv
    simp only [List.map_cons]
    cases hk : (k0 == k) with
    | true =>
      have hk0 : k0 = k := by simpa using hk
      subst hk0
      simp [dget, show ¬ (k0 = k') from fun hc => hne hc.symm]
      simpa using ih
    | false =>
      by_cases hk0' : k0 = k'
      · subst hk0'
        simp [dget]
      · simp [dget, hk0']
        simpa using ih

theorem dget_dset_self (d : Dict) (k : String) (v : JVal) :
    dget (dset d k v) k = some v := by
  unfold dset
  by_cases h : dmem d k
  · rw [if_pos h]
    exact dget_mapReplace d k v h
  · rw [if_neg h]
    induction d with
    | nil => simp [dget]
    | cons kv rest ih =>
      obtain ⟨k0, v0⟩ := kv
      cases hk : (k0 == k) with
      | true =>
        exact absurd (by simp [dmem, dget, hk] : dmem ((k0, v0) :: rest) k = true) h
      | false =>
        have h' : ¬ dmem rest k = true := by
          simpa [dmem, dget, hk] using h
        simpa [dget, hk] using ih h'

theorem dget_dset_other (d : Dict) (k k' : String) (v : JVal)
    (hne : ¬ k' = k) :
    dget (dset d k v) k' = dget d k' := by
  unfold dset
  by_cases h : dmem d k
  · rw [if_pos h]
    exact dget_mapReplace_other d k k' v hne
  · rw [if_neg h]
    induction d with
    | nil =>
      simp [dget, show ¬ (k = k') from fun hc => hne hc.symm]
    | cons kv rest ih =>
      obtain ⟨k0, v0⟩ := kv
      have h' : ¬ dmem rest k = true := by
        cases hk : (k0 == k) with
        | true =>
          exact absurd (by simp [dmem, dget, hk] : dmem ((k0, v0) :: rest) k = true) h
        | false => simpa [dmem, dget, hk] using h
      by_cases hk0' : k0 = k'
      · subst hk0'
        simp [dget]
      · simpa [dget, hk0'] using ih h'

/-- C4 (amended): a `torch.cuda.OutOfMemoryError` from the generation
collaborator triggers exactly one automatic retry with the reduced
configuration (480p preset, sampling steps capped at 8); no other
generation failure triggers a retry; but when the retry fails with CUDA
OOM again the handler's envelope carries `E_GENERATION_RUNTIME`, not
`E_OOM`, because `torch.cuda.OutOfMemoryError` is a `RuntimeError`
subclass caught by the `except RuntimeError` clause. -/
theorem oom_single_retry (w : PipelineWorld) (p : Dict) (m : String)
    (hprep : w.prep = .ok ())
    (hbuild : w.build p = .ok ())
    (hbuild2 : w.build (reduceParams p) = .ok ()) :
    (w.generate p = .error (.cudaOOM m) →
      (run_inference w p).2 = [p, reduceParams p])
    ∧ dget (reduceParams p) "size" = some (JVal.jstr "infinitetalk-480")
    ∧ dget (reduceParams p) "sample_steps" =
        some (JVal.jint (min 8 (sampleStepsOf p)))
    ∧ (∀ e : PyExc, e.isCudaOOMClass = false → w.generate p = .error e →
        run_inference w p = (.error e, [p]))
    ∧ (∀ m' : String, w.generate p = .error (.cudaOOM m) →
        w.generate (reduceParams p) = .error (.cudaOOM m') →
        containsSub m' "Model paths" = false →
        ((runSingleItem { pipe := w, uploadStatus := 200, inlineReadOk := true } p).error.map
          ErrDetails.code) = some "E_GENERATION_RUNTIME") := by
  refine ⟨?_, ?_, ?_, ?_, ?_⟩
  · intro hgen
    simp only [run_inference, hprep, hbuild, hgen, PyExc.isCudaOOMClass,
      ite_true, hbuild2]
    cases w.generate (reduceParams p) with
    | error e2 => rfl
    | ok u =>
      cases w.mux with
      | error e2 => rfl
      | ok u2 => rfl
  · unfold reduceParams
    rw [dget_dset_other _ _ _ _ (by decide), dget_dset_self]
  · unfold reduceParams
    rw [dget_dset_self]
  · intro e he hgen
    simp only [run_inference, hprep, hbuild, hgen, he]
    rfl
  · intro m' hgen hgen2 hmp
    unfold runSingleItem
    simp only [run_inference, hprep, hbuild, hgen, PyExc.isCudaOOMClass,
      ite_true, hbuild2, hgen2]
    simp only [errorOutput, classifyItemExc, PyExc.isRuntimeErrorClass,
      PyExc.msg, hmp, ite_true, ite_false, Bool.false_eq_true]
    rfl

/-- C4 (counterexample): when both the original attempt and the automatic
retry raise CUDA OOM, the error envelope carries `E_GENERATION_RUNTIME`,
not the `E_OOM` code the claim requires. -/
theorem oom_double_failure_not_oom_code :
    (run_inference oomPipeline samplePayload).2.length = 2
    ∧ (runSingleItem oomItemWorld samplePayload).status = "error"
    ∧ ((runSingleItem oomItemWorld samplePayload).error.map ErrDetails.code) =
        some "E_GENERATION_RUNTIME"
    ∧ ((runSingleItem oomItemWorld samplePayload).error.map ErrDetails.code) ≠
        some "E_OOM" := by
  refine ⟨rfl, rfl, rfl, by decide⟩

theorem oom_single_retry_witness :
    ((oomPipeline.generate samplePayload =
        .error (.cudaOOM "CUDA out of memory. Tried to allocate 20.00 GiB") →
      (run_inference oomPipeline samplePayload).2 =
        [samplePayload, reduceParams samplePayload])
    ∧ dget (reduceParams samplePayload) "size" =
        some (JVal.jstr "infinitetalk-480")
    ∧ dget (reduceParams samplePayload) "sample_steps" =
        some (JVal.jint (min 8 (sampleStepsOf samplePayload)))
    ∧ (∀ e : PyExc, e.isCudaOOMClass = false →
        oomPipeline.generate samplePayload = .error e →
        run_inference oomPipeline samplePayload = (.error e, [samplePayload]))
    ∧ (∀ m' : String,
        oomPipeline.generate samplePayload =
          .error (.cudaOOM "CUDA out of memory. Tried to allocate 20.00 GiB") →
        oomPipeline.generate (reduceParams samplePayload) = .error (.cudaOOM m') →
        containsSub m' "Model paths" = false →
        ((runSingleItem { pipe := oomPipeline, uploadStatus := 200, inlineReadOk := true }
            samplePayload).error.map ErrDetails.code) = some "E_GENERATION_RUNTIME")) :=
  oom_single_retry oomPipeline samplePayload
    "CUDA out of memory. Tried to allocate 20.00 GiB" rfl rfl rfl

/-- C5 (amended): an exception from the generation stage is classified by
catch-clause order: any `RuntimeError` (including CUDA OOM and upload
failures) maps to `E_PIPELINE_LOAD` when its message contains
`Model paths` and otherwise to `E_GENERATION_RUNTIME`; `MemoryError` maps
to `E_OOM`; only the remaining exceptions are classified by message
inspection (`ffmpeg` to `E_FFMPEG`, `WAV2VEC_DIR`/`audio embedding` to
`E_AUDIO_EMBEDDING`, anything else to `E_GENERATION_RUNTIME`).  The
envelope's retryable flag always equals the fixed table's value for the
assigned code, and the code is always a key of the table. -/
theorem generation_exception_classification (w : ItemWorld) (p : Dict)
    (e : PyExc) (h : (run_inference w.pipe p).1 = .error e) :
    ∃ d : ErrDetails, (runSingleItem w p).error = some d
      ∧ (e.isMemoryErrorClass = true → d.code = "E_OOM")
      ∧ (e.isRuntimeErrorClass = true →
          d.code = (if containsSub e.msg "Model paths" then "E_PIPELINE_LOAD"
                    else "E_GENERATION_RUNTIME"))
      ∧ (e.isRuntimeErrorClass = false → e.isMemoryErrorClass = false →
          d.code =
            (if containsSub (lowerStr e.msg) "ffmpeg" then "E_FFMPEG"
             else if containsSub e.msg "WAV2VEC_DIR" ||
                 containsSub (lowerStr e.msg) "audio embedding" then
               "E_AUDIO_EMBEDDING"
             else "E_GENERATION_RUNTIME"))
      ∧ d.retryable = retryableOf d.code
      ∧ (ERROR_RETRYABLE.lookup d.code).isSome = true := by
  unfold runSingleItem
  rw [h]
  refine ⟨_, rfl, ?_, ?_, ?_, rfl, ?_⟩
  · intro hm
    cases e <;> simp_all [classifyItemExc, PyExc.isMemoryErrorClass,
      PyExc.isRuntimeErrorClass, errorOutput, build_error]
  · intro hr
    cases e <;> simp_all [classifyItemExc, PyExc.isRuntimeErrorClass,
      PyExc.msg, errorOutput, build_error]
  · intro hr hm
    cases e <;> simp_all [classifyItemExc, PyExc.isRuntimeErrorClass,
      PyExc.isMemoryErrorClass, PyExc.msg, errorOutput, build_error]
  · show (ERROR_RETRYABLE.lookup (classifyItemExc e).1).isSome = true
    cases e
    all_goals
      unfold classifyItemExc
      simp only [PyExc.isRuntimeErrorClass, PyExc.isMemoryErrorClass, PyExc.msg]
      split_ifs <;> rfl

/-- C5 (counterexample): the repository's own
`RuntimeError("WAV2VEC_DIR env var is required for audio embedding.")`
mentions both `WAV2VEC_DIR` and `audio embedding`, yet is classified as
`E_GENERATION_RUNTIME` — not `E_AUDIO_EMBEDDING` — because the
`except RuntimeError` clause runs before the message inspection. -/
theorem wav2vec_message_not_audio_embedding_code :
    (runSingleItem wavItemWorld samplePayload).status = "error"
    ∧ ((runSingleItem wavItemWorld samplePayload).error.map ErrDetails.cause_message)
        = some (some "WAV2VEC_DIR env var is required for audio embedding.")
    ∧ containsSub "WAV2VEC_DIR env var is required for audio embedding."
        "WAV2VEC_DIR" = true
    ∧ containsSub (lowerStr "WAV2VEC_DIR env var is required for audio embedding.")
        "audio embedding" = true
    ∧ ((runSingleItem wavItemWorld samplePayload).error.map ErrDetails.code) =
        some "E_GENERATION_RUNTIME"
    ∧ ((runSingleItem wavItemWorld samplePayload).error.map ErrDetails.code) ≠
        some "E_AUDIO_EMBEDDING" := by
  refine ⟨rfl, rfl, rfl, rfl, rfl, by decide⟩

theorem generation_exception_classification_witness :
    ∃ d : ErrDetails, (runSingleItem failItemWorld samplePayload).error = some d
      ∧ ((PyExc.otherError "OSError" "disk unhappy").isMemoryErrorClass = true →
          d.code = "E_OOM")
      ∧ ((PyExc.otherError "OSError" "disk unhappy").isRuntimeErrorClass = true →
          d.code = (if containsSub (PyExc.otherError "OSError" "disk unhappy").msg
              "Model paths" then "E_PIPELINE_LOAD" else "E_GENERATION_RUNTIME"))
      ∧ ((PyExc.otherError "OSError" "disk unhappy").isRuntimeErrorClass = false →
          (PyExc.otherError "OSError" "disk unhappy").isMemoryErrorClass = false →
          d.code =
            (if containsSub (lowerStr (PyExc.otherError "OSError" "disk unhappy").msg)
                "ffmpeg" then "E_FFMPEG"
             else if containsSub (PyExc.otherError "OSError" "disk unhappy").msg
                   "WAV2VEC_DIR" ||
                 containsSub (lowerStr (PyExc.otherError "OSError" "disk unhappy").msg)
                   "audio embedding" then "E_AUDIO_EMBEDDING"
             else "E_GENERATION_RUNTIME"))
      ∧ d.retryable = retryableOf d.code
      ∧ (ERROR_RETRYABLE.lookup d.code).isSome = true :=
  generation_exception_classification failItemWorld samplePayload
    (PyExc.otherError "OSError" "disk unhappy") rfl

/-- Re-applying `apply_defaults_to_single` to its own output is the
identity (the defaults' generation sub-tree, being a parsed YAML mapping,
has distinct keys). -/
theorem apply_defaults_idem (s d : Dict)
    (hnd : (dkeys (dgetObj d "generation")).Nodup) :
    apply_defaults_to_single (apply_defaults_to_single s d) d =
      apply_defaults_to_single s d := by
  unfold apply_defaults_to_single
  by_cases hcond : (!(dmem (pyUnion (dgetObj d "generation") s) "output_config")
      && dmem d "output") = true
  · rw [if_pos hcond]
    have h1 : dmem (pyUnion (dgetObj d "generation") s) "output_config" = false := by
      rcases Bool.and_eq_true_iff.mp hcond with ⟨ha, _⟩
      simpa using ha
    have hocg : dmem (dgetObj d "generation") "output_config" = false := by
      rw [dmem_pyUnion] at h1
      exact (Bool.or_eq_false_iff.mp h1).1
    rw [pyUnion_append_single _ _ _ _ hocg, pyUnion_absorb _ _ hnd]
    have hmem2 : dmem (pyUnion (dgetObj d "generation") s ++
        [("output_config", (dget d "output").getD JVal.jnull)]) "output_config" = true := by
      rw [dmem_append]
      simp [dmem, dget]
    rw [if_neg (by rw [hmem2]; simp)]
  · rw [if_neg hcond, pyUnion_absorb _ _ hnd, if_neg hcond]

theorem normalizeItems_validate (d : Dict) :
    ∀ (items : List JVal) (norms : List Dict),
      normalizeItems d items = .ok norms →
      ∀ n ∈ norms, validateBatchItem n = .ok () := by
  intro items
  induction items with
  | nil =>
    intro norms h n hn
    simp only [normalizeItems] at h
    cases h
    simp at hn
  | cons it rest ih =>
    intro norms h n hn
    cases it with
    | jobj fs =>
      simp only [normalizeItems] at h
      cases hv : validateBatchItem (apply_defaults_to_single fs d) with
      | error e => rw [hv] at h; exact absurd h (by simp)
      | ok u =>
        rw [hv] at h
        cases ht : normalizeItems d rest with
        | error e =>
          rw [ht] at h
          simp [Bind.bind, Except.bind] at h
        | ok tail =>
          rw [ht] at h
          simp only [Bind.bind, Except.bind, Except.ok.injEq] at h
          subst h
          rcases List.mem_cons.mp hn with rfl | hmem
          · cases u
            exact hv
          · exact ih tail ht n hmem
    | jnull => exact absurd h (by simp [normalizeItems])
    | jbool b => exact absurd h (by simp [normalizeItems])
    | jint m => exact absurd h (by simp [normalizeItems])
    | jnum q => exact absurd h (by simp [normalizeItems])
    | jstr s => exact absurd h (by simp [normalizeItems])
    | jarr xs => exact absurd h (by simp [normalizeItems])

theorem normalizeItems_length (d : Dict) :
    ∀ (items : List JVal) (norms : List Dict),
      normalizeItems d items = .ok norms → norms.length = items.length := by
  intro items
  induction items with
  | nil =>
    intro norms h
    simp only [normalizeItems] at h
    cases h
    rfl
  | cons it rest ih =>
    intro norms h
    cases it with
    | jobj fs =>
      simp only [normalizeItems] at h
      cases hv : validateBatchItem (apply_defaults_to_single fs d) with
      | error e => rw [hv] at h; exact absurd h (by simp)
      | ok u =>
        rw [hv] at h
        cases ht : normalizeItems d rest with
        | error e =>
          rw [ht] at h
          simp [Bind.bind, Except.bind] at h
        | ok tail =>
          rw [ht] at h
          simp only [Bind.bind, Except.bind, Except.ok.injEq] at h
          subst h
          simp [ih tail ht]
    | jnull => exact absurd h (by simp [normalizeItems])
    | jbool b => exact absurd h (by simp [normalizeItems])
    | jint m => exact absurd h (by simp [normalizeItems])
    | jnum q => exact absurd h (by simp [normalizeItems])
    | jstr s => exact absurd h (by simp [normalizeItems])
    | jarr xs => exact absurd h (by simp [normalizeItems])

theorem normalizeItems_idem (d : Dict)
    (hnd : (dkeys (dgetObj d "generation")).Nodup) :
    ∀ (items : List JVal) (norms : List Dict),
      normalizeItems d items = .ok norms →
      normalizeItems d (norms.map JVal.jobj) = .ok norms := by
  intro items
  induction items with
  | nil =>
    intro norms h
    simp only [normalizeItems] at h
    cases h
    rfl
  | cons it rest ih =>
    intro norms h
    cases it with
    | jobj fs =>
      simp only [normalizeItems] at h
      cases hv : validateBatchItem (apply_defaults_to_single fs d) with
      | error e => rw [hv] at h; exact absurd h (by simp)
      | ok u =>
        rw [hv] at h
        cases ht : normalizeItems d rest with
        | error e =>
          rw [ht] at h
          simp [Bind.bind, Except.bind] at h
        | ok tail =>
          rw [ht] at h
          simp only [Bind.bind, Except.bind, Except.ok.injEq] at h
          subst h
          simp only [List.map_cons, normalizeItems]
          rw [apply_defaults_idem fs d hnd, hv, ih tail ht]
          cases u
          rfl
    | jnull => exact absurd h (by simp [normalizeItems])
    | jbool b => exact absurd h (by simp [normalizeItems])
    | jint m => exact absurd h (by simp [normalizeItems])
    | jnum q => exact absurd h (by simp [normalizeItems])
    | jstr s => exact absurd h (by simp [normalizeItems])
    | jarr xs => exact absurd h (by simp [normalizeItems])

theorem validateRawItems_of_validated :
    ∀ (norms : List Dict),
      (∀ n ∈ norms, validateBatchItem n = .ok ()) →
      validateRawItems (norms.map JVal.jobj) = .ok () := by
  intro norms
  induction norms with
  | nil => intro _; rfl
  | cons n rest ih =>
    intro h
    simp only [List.map_cons, validateRawItems]
    rw [h n (List.mem_cons_self n rest)]
    simp only [Bind.bind, Except.bind]
    exact ih fun m hm => h m (List.mem_cons_of_mem n hm)

/-- C9 (amended): `normalize_and_validate` is idempotent once its output
is re-wrapped as the `input` field of a fresh envelope: if
`normalize_and_validate env d = ok out` (and the defaults' generation
sub-tree has distinct keys and no `batch` key), then
`normalize_and_validate {"input": out} d = ok out`.  Applying it to the
bare output fails, since the output is a payload, not an envelope. -/
theorem normalize_idempotent_when_rewrapped (env d out : Dict)
    (hnd : (dkeys (dgetObj d "generation")).Nodup)
    (hb : dmem (dgetObj d "generation") "batch" = false)
    (h : normalize_and_validate env d = .ok out) :
    normalize_and_validate [("input", JVal.jobj out)] d = .ok out := by
  show normalize_payload out d = .ok out
  unfold normalize_and_validate at h
  split at h
  next payload hpay =>
    unfold normalize_payload at h
    split at h
    next bval hbval =>
      unfold normalize_batch at h
      split at h
      next items =>
        split at h
        next hempty => exact absurd h (by simp)
        next hnonempty =>
          split at h
          next e hraw => exact absurd h (by simp)
          next u hraw =>
            split at h
            next e hni => exact absurd h (by simp)
            next norms hni =>
              have hval := normalizeItems_validate d items norms hni
              have hidem := normalizeItems_idem d hnd items norms hni
              have hrawn := validateRawItems_of_validated norms hval
              have hlen := normalizeItems_length d items norms hni
              have hne : (norms.map JVal.jobj).isEmpty = false := by
                cases norms with
                | nil =>
                  cases items with
                  | nil => simp at hnonempty
                  | cons a b => simp at hlen
                | cons a b => rfl
              split at h
              next oc hoc =>
                have hout : out =
                    [("batch", JVal.jarr (norms.map JVal.jobj)), ("output_config", oc)] := by
                  cases h
                  rfl
                subst hout
                show normalize_batch
                  [("batch", JVal.jarr (norms.map JVal.jobj)), ("output_config", oc)]
                  (JVal.jarr (norms.map JVal.jobj)) d =
                  .ok [("batch", JVal.jarr (norms.map JVal.jobj)), ("output_config", oc)]
                simp only [normalize_batch, hne, Bool.false_eq_true, if_false,
                  hrawn, hidem]
                rfl
              next hnooc =>
                have hout : out = [("batch", JVal.jarr (norms.map JVal.jobj))] := by
                  cases h
                  rfl
                subst hout
                show normalize_batch
                  [("batch", JVal.jarr (norms.map JVal.jobj))]
                  (JVal.jarr (norms.map JVal.jobj)) d =
                  .ok [("batch", JVal.jarr (norms.map JVal.jobj))]
                simp only [normalize_batch, hne, Bool.false_eq_true, if_false,
                  hrawn, hidem]
                rfl
      next hne2 => exact absurd h (by simp)
    next hnobatch =>
      unfold normalize_single at h
      split at h
      next e herr => exact absurd h (by simp)
      next val hval =>
        split at h
        next e herr2 => exact absurd h (by simp)
        next val2 hval2 =>
          have hout : out = apply_defaults_to_single payload d := by
            cases h
            rfl
          subst hout
          have hq : dget (apply_defaults_to_single payload d) "batch" = none := by
            apply dget_eq_none_of_not_mem
            unfold apply_defaults_to_single
            have hpb : dmem payload "batch" = false := by
              unfold dmem
              rw [hnobatch]
              rfl
            split_ifs
            · rw [dmem_append, dmem_pyUnion, hb, hpb]
              simp [dmem, dget]
            · rw [dmem_pyUnion, hb, hpb]
              rfl
          simp only [normalize_payload, hq]
          simp only [normalize_single, hval2, apply_defaults_idem payload d hnd]
  next hnotobj => exact absurd h (by simp)
  next hmissing => exact absurd h (by simp)

/-- C9 (counterexample): the output of a successful
`normalize_and_validate` call is the bare normalized payload — not an
envelope with an `input` field — so applying `normalize_and_validate` to
it again with the same defaults raises instead of succeeding. -/
theorem normalize_not_idempotent_unwrapped :
    normalize_and_validate sampleEnvelope [] = .ok samplePayload
    ∧ normalize_and_validate samplePayload [] = .error "input field required" :=
  ⟨rfl, rfl⟩

theorem normalize_idempotent_when_rewrapped_witness :
    normalize_and_validate
      [("input", JVal.jobj (apply_defaults_to_single samplePayload sampleDefaults))]
      sampleDefaults =
      .ok (apply_defaults_to_single samplePayload sampleDefaults) :=
  normalize_idempotent_when_rewrapped sampleEnvelope sampleDefaults
    (apply_defaults_to_single samplePayload sampleDefaults)
    (by decide) rfl rfl

/-- C10: for an accepted single envelope, the normalized payload contains
exactly the caller's fields plus the defaults' generation sub-tree, plus
an `output_config` taken from the defaults' `output` sub-tree exactly when
the merge produced none; schema-level defaults (e.g. `frame_num = 81`)
are never materialized for fields absent from both sources. -/
theorem normalized_single_fields (env d out payload : Dict)
    (hpay : dget env "input" = some (JVal.jobj payload))
    (hsingle : dget payload "batch" = none)
    (h : normalize_and_validate env d = .ok out) :
    out = apply_defaults_to_single payload d
    ∧ (∀ k, dmem out k =
        (dmem (dgetObj d "generation") k || dmem payload k ||
          (k == "output_config" && dmem d "output" &&
            !(dmem (dgetObj d "generation") "output_config" ||
              dmem payload "output_config"))))
    ∧ (dmem (pyUnion (dgetObj d "generation") payload) "output_config" = false →
        dmem d "output" = true →
        dget out "output_config" = dget d "output")
    ∧ (dmem payload "frame_num" = false →
        dmem (dgetObj d "generation") "frame_num" = false →
        dmem out "frame_num" = false) := by
  have h2 : normalize_payload payload d = .ok out := by
    unfold normalize_and_validate at h
    rw [hpay] at h
    exact h
  have hout : out = apply_defaults_to_single payload d := by
    have h3 : normalize_single payload d = .ok out := by
      unfold normalize_payload at h2
      rw [hsingle] at h2
      exact h2
    unfold normalize_single at h3
    split at h3
    next e herr => exact absurd h3 (by simp)
    next val hval =>
      split at h3
      next e herr2 => exact absurd h3 (by simp)
      next val2 hval2 =>
        cases h3
        rfl
  have hkey : ∀ k, dmem out k =
      (dmem (dgetObj d "generation") k || dmem payload k ||
        (k == "output_config" && dmem d "output" &&
          !(dmem (dgetObj d "generation") "output_config" ||
            dmem payload "output_config"))) := by
    intro k
    rw [hout]
    unfold apply_defaults_to_single
    split_ifs with hcond
    · rw [dmem_append, dmem_pyUnion]
      rcases Bool.and_eq_true_iff.mp hcond with ⟨hnoc, hdout⟩
      have hx : (dmem (dgetObj d "generation") "output_config" ||
          dmem payload "output_config") = false := by
        rw [← dmem_pyUnion]
        simpa using hnoc
      rcases Bool.or_eq_false_iff.mp hx with ⟨hgoc, hpoc⟩
      by_cases hk : k = "output_config"
      · subst hk
        rw [hgoc, hpoc, hdout]
        rfl
      · have h1 : ("output_config" == k) = false := by
          simp only [beq_eq_false_iff_ne, ne_eq]
          exact fun hc => hk hc.symm
        have h2k : (k == "output_config") = false := by
          simp only [beq_eq_false_iff_ne, ne_eq]
          exact hk
        have hdm : dmem [("output_config", (dget d "output").getD JVal.jnull)] k
            = false := by
          simp [dmem, dget, h1]
        rw [hdm, h2k]
        simp
    · rw [dmem_pyUnion]
      have hcond2 : (!(dmem (dgetObj d "generation") "output_config" ||
          dmem payload "output_config") && dmem d "output") = false := by
        rw [← dmem_pyUnion]
        exact Bool.eq_false_iff.mpr hcond
      cases hy : dmem d "output" with
      | false => simp [hy]
      | true =>
        cases hx2 : (dmem (dgetObj d "generation") "output_config" ||
            dmem payload "output_config") with
        | true => simp [hy, hx2]
        | false =>
          rw [hy, hx2] at hcond2
          simp at hcond2
  refine ⟨hout, hkey, ?_, ?_⟩
  · intro hmerged hdout
    rw [hout]
    unfold apply_defaults_to_single
    rw [if_pos (by rw [hmerged, hdout]; rfl)]
    rw [dget_append, dget_eq_none_of_not_mem _ _ hmerged]
    cases ho : dget d "output" with
    | none =>
      exfalso
      unfold dmem at hdout
      rw [ho] at hdout
      simp at hdout
    | some u => simp [dget, ho]
  · intro hp hg
    rw [hkey "frame_num", hp, hg]
    rfl

theorem normalized_single_fields_witness :
    dmem (apply_defaults_to_single samplePayload sampleDefaults) "frame_num" = false
    ∧ dget (apply_defaults_to_single samplePayload sampleDefaults) "output_config" =
        dget sampleDefaults "output" :=
  ⟨(normalized_single_fields sampleEnvelope sampleDefaults
      (apply_defaults_to_single samplePayload sampleDefaults) samplePayload
      rfl rfl rfl).2.2.2 rfl rfl,
   (normalized_single_fields sampleEnvelope sampleDefaults
      (apply_defaults_to_single samplePayload sampleDefaults) samplePayload
      rfl rfl rfl).2.2.1 rfl rfl⟩
